import Mathlib

/-!
# XSDtoOWL core engine: shallow embedding and verification

This file embeds the core of the XSDtoOWL transformation engine in Lean 4:

* the RDF graph sink (rdflib `Graph` with idempotent `add`),
* the special-case configuration tables (`xsd_to_owl/config/special_cases.py`),
* the property classification and range-inference helpers
  (`xsd_to_owl/auxiliary/property_utils.py`),
* the property-dedup helpers (`enhance_existing_property`,
  `property_exists`, the property registry),
* the rule registry (`xsd_to_owl/core/registry.py`),
* the phase / pipeline machinery (`xsd_to_owl/core/pipeline.py`:
  `TransformationPhase.is_processed`, `mark_processed`, `execute`,
  `_process_element`, `_process_element_tree`,
  `TransformationPipeline.execute`).

Definitions are translated from the repository sources.  Logging and the
diagnostic `print` calls in the sources produce output only and never
influence a computed value or stored state; they are therefore not part
of the value-level embedding.
-/

namespace XSDtoOWL

/-! ## RDF graph model

rdflib graphs are sets of triples; `add` on an already present triple is
a no-op.  We model a graph as a duplicate-free list so that "the graph
contains exactly one declaration triple" is expressible by counting. -/

structure Triple where
  subj : String
  pred : String
  obj : String
deriving DecidableEq, Repr

abbrev Graph := List Triple

def addTriple (g : Graph) (t : Triple) : Graph :=
  if t ∈ g then g else g ++ [t]

theorem mem_addTriple_self (g : Graph) (t : Triple) : t ∈ addTriple g t := by
  unfold addTriple
  split
  · assumption
  · simp

theorem mem_addTriple_iff (g : Graph) (t u : Triple) :
    u ∈ addTriple g t ↔ u ∈ g ∨ u = t := by
  unfold addTriple
  split
  · rename_i h
    constructor
    · exact Or.inl
    · rintro (hu | rfl) <;> [exact hu; exact h]
  · simp

theorem addTriple_idem (g : Graph) (t : Triple) :
    addTriple (addTriple g t) t = addTriple g t := by
  unfold addTriple
  split
  · simp [*]
  · simp

theorem count_addTriple_of_ne (g : Graph) (t u : Triple) (h : u ≠ t) :
    (addTriple g t).count u = g.count u := by
  unfold addTriple
  split
  · rfl
  · simp [List.count_append, List.count_singleton, h]

theorem count_addTriple_self_of_not_mem (g : Graph) (t : Triple) (h : t ∉ g) :
    (addTriple g t).count t = g.count t + 1 := by
  unfold addTriple
  split
  · exact absurd ‹t ∈ g› h
  · simp [List.count_append]

/-- RDF/OWL/SKOS vocabulary values used by the sources (the concrete URI
strings are irrelevant to the logic; only their pairwise distinctness is). -/
def rdfType : String := "rdf:type"

def owlDatatypeProperty : String := "owl:DatatypeProperty"

def owlObjectProperty : String := "owl:ObjectProperty"

def owlFunctionalProperty : String := "owl:FunctionalProperty"

def rdfsLabel : String := "rdfs:label"

def rdfsDomain : String := "rdfs:domain"

def rdfsRange : String := "rdfs:range"

def skosDefinition : String := "skos:definition"

/-- Model of `rdflib.Literal(s)`. -/
def literalOf (s : String) : String := "literal:" ++ s

/-- Model of `rdflib.Literal(s, lang='en')`. -/
def literalEn (s : String) : String := "literal@en:" ++ s

/-! ## Python truthiness

The sources branch on Python truthiness of strings and optional strings:
`None` and the empty string are falsy. -/

def strTruthy (s : String) : Bool := !s.isEmpty

def optTruthy : Option String → Bool
  | none => false
  | some s => strTruthy s

/-- Character-list substring test (auxiliary for `containsSubstr`). -/
def charsInfix (needle : List Char) : List Char → Bool
  | [] => needle.isEmpty
  | c :: rest => needle.isPrefixOf (c :: rest) || charsInfix needle rest

/-- `needle in hay` on Python strings (substring containment). -/
def containsSubstr (hay needle : String) : Bool :=
  charsInfix needle.toList hay.toList

/-- Python `s.startswith(pre)`. -/
def startsWithStr (s pre : String) : Bool :=
  pre.toList.isPrefixOf s.toList

/-- Python `s.lower()` (character-wise lowering; the names and type
references involved are ASCII). -/
def lowerStr (s : String) : String :=
  String.mk (s.toList.map Char.toLower)

/-! ## Configuration tables (`xsd_to_owl/config/special_cases.py`)

`FORCE_DATATYPE_PROPERTIES` and `FORCE_OBJECT_PROPERTIES` are dicts in the
source; membership tests use only their key sets, modelled as lists.
`SKIP_ELEMENTS`, `SKIP_TYPES` and `NEVER_OBJECT_PROPERTIES` are empty in
the source. -/

def FORCE_DATATYPE_PROPERTIES : List String :=
  ["airBrakedMassLoaded", "airBrakedMass"]

def FORCE_OBJECT_PROPERTIES : List String :=
  ["administrativeDataSet"]

def DATATYPE_PROPERTY_TYPES : List String :=
  ["Numeric3-3", "Numeric1-1", "Numeric2-2", "Numeric4-4", "Numeric5-5",
   "Numeric6-6", "Numeric7-7", "Numeric8-8", "Numeric9-9", "Numeric10-10",
   "Numeric11-11", "Numeric12-12"]

def FORCE_CLASS_TYPES : List String := ["RollingStockDataSet", "WagonDataSet"]

def FORCE_CLASS_ELEMENTS : List String := ["AdministrativeDataSet"]

def SKIP_ELEMENTS : List String := []

def SKIP_TYPES : List String := []

def NEVER_OBJECT_PROPERTIES : List String := []

/-- The regular expression `^Numeric\d+(-\d+)?$` used by
`is_datatype_property_type` and `should_never_be_object_property`
(both anchors explicit in the source pattern). -/
def numericTypePattern (s : String) : Bool :=
  let l := s.toList
  if l.take 7 = "Numeric".toList then
    let rest := l.drop 7
    let d := rest.takeWhile Char.isDigit
    let r := rest.dropWhile Char.isDigit
    if d.isEmpty then false
    else
      match r with
      | [] => true
      | c :: r2 => c = '-' && (!r2.isEmpty && r2.all Char.isDigit)
  else false

/-- `special_cases.is_forced_datatype_property`:
`element_name in FORCE_DATATYPE_PROPERTIES or element_name in
NEVER_OBJECT_PROPERTIES`. -/
def is_forced_datatype_property (element_name : String) : Bool :=
  FORCE_DATATYPE_PROPERTIES.contains element_name ||
    NEVER_OBJECT_PROPERTIES.contains element_name

/-- `special_cases.is_forced_object_property`:
`element_name in FORCE_OBJECT_PROPERTIES and element_name not in
NEVER_OBJECT_PROPERTIES`. -/
def is_forced_object_property (element_name : String) : Bool :=
  FORCE_OBJECT_PROPERTIES.contains element_name &&
    !(NEVER_OBJECT_PROPERTIES.contains element_name)

/-- `special_cases.is_datatype_property_type`. -/
def is_datatype_property_type (type_name : String) : Bool :=
  DATATYPE_PROPERTY_TYPES.contains type_name || numericTypePattern type_name

/-- `special_cases.should_never_be_object_property(element_name,
element_type=None)`: if `element_type` is truthy and matches the Numeric
pattern the answer is `True`; otherwise membership in
`NEVER_OBJECT_PROPERTIES` decides. -/
def should_never_be_object_property (element_name : String)
    (element_type : Option String) : Bool :=
  (optTruthy element_type && numericTypePattern (element_type.getD "")) ||
    NEVER_OBJECT_PROPERTIES.contains element_name

/-! ## Schema tree nodes

An lxml element as the engine reads it: a tag, the `name` and `type`
attributes (absent attributes read as `None` through `element.get`), and
the ordered child elements. -/

inductive XSDElement where
  | mk (tag : String) (nameAttr : Option String) (typeAttr : Option String)
      (children : List XSDElement)

def XSDElement.tag : XSDElement → String
  | .mk t _ _ _ => t

def XSDElement.nameAttr : XSDElement → Option String
  | .mk _ n _ _ => n

def XSDElement.typeAttr : XSDElement → Option String
  | .mk _ _ ty _ => ty

def XSDElement.children : XSDElement → List XSDElement
  | .mk _ _ _ cs => cs

/-- The XML-Schema namespace prefix `XS_NS` of `property_utils.py`. -/
def XS_NS : String := "\x7bhttp://www.w3.org/2001/XMLSchema\x7d"

/-- `element.find("./" + XS_NS + tag) is not None`: is there a direct child
with the given tag? -/
def hasDirectChildWithTag (e : XSDElement) (t : String) : Bool :=
  e.children.any (fun c => c.tag = t)

/-! ## Property classification (`property_utils.is_datatype_property`)

Decision sequence of the source:
1. `element_name = element.get('name') or property_name`;
   `element_type = element.get('type')`.
2. If `element_name` is truthy and `is_forced_datatype_property` or
   `should_never_be_object_property` says so: `True`.
3. (For `property_name == 'AdministrativeDataSet'` the source prints a
   diagnostic block; it assigns only dead locals and is output-only.)
4. If the type attribute is truthy and starts with `Numeric` or matches
   the Numeric pattern: `True`.
5. If the element has a direct `complexType` child: `False`.
6. If it has a type attribute whose lowercase form does not contain
   `simple`: `False`.
7. Otherwise `True`. -/
def is_datatype_property (element : XSDElement) (property_name : String) :
    Bool :=
  let element_name : String :=
    match element.nameAttr with
    | some s => if s.isEmpty then property_name else s
    | none => property_name
  let element_type := element.typeAttr
  if strTruthy element_name &&
      (is_forced_datatype_property element_name ||
        should_never_be_object_property element_name element_type) then
    true
  else
    let type_attr := element.typeAttr
    if optTruthy type_attr &&
        (startsWithStr (type_attr.getD "") "Numeric" ||
          numericTypePattern (type_attr.getD "")) then
      true
    else
      let has_complex_type :=
        hasDirectChildWithTag element (XS_NS ++ "complexType")
      let has_type_attr := element.typeAttr.isSome
      if has_complex_type then false
      else if has_type_attr &&
          !(containsSubstr (lowerStr (type_attr.getD "")) "simple") then false
      else true

/-! ## Range inference (`property_utils.determine_datatype_range`)

The source returns one of: `context.XSD.decimal`, the result of
`context.get_type_reference(type_reference)`, `context.XSD.dateTime`, or
`context.XSD.string`. -/

inductive DatatypeRange where
  | decimal
  | resolvedTypeRef (typeReference : String)
  | dateTime
  | stringRange
deriving DecidableEq, Repr

def temporalCues : List String := ["date", "time", "expiry", "until", "since"]

/-- `property_utils.determine_datatype_range(element, property_name,
context)`:
```python
type_reference = element.get('type')
if type_reference and type_reference.startswith('Numeric'):
    return context.XSD.decimal
if type_reference:
    if ':' in type_reference:
        return context.get_type_reference(type_reference)
if property_name:
    if any(term in property_name.lower()
           for term in ('date', 'time', 'expiry', 'until', 'since')):
        return context.XSD.dateTime
return context.XSD.string
``` -/
def determine_datatype_range (element : XSDElement) (property_name : String) :
    DatatypeRange :=
  let type_reference := element.typeAttr
  if optTruthy type_reference &&
      startsWithStr (type_reference.getD "") "Numeric" then
    .decimal
  else if optTruthy type_reference &&
      containsSubstr (type_reference.getD "") ":" then
    .resolvedTypeRef (type_reference.getD "")
  else if strTruthy property_name &&
      temporalCues.any (fun term => containsSubstr (lowerStr property_name) term)
      then
    .dateTime
  else
    .stringRange

/-! ## Property registry (`property_utils._property_registry`)

A process-wide dict from lowercased property name to
`{'uri': ..., 'is_datatype': ...}`; `reset_property_registry` empties it. -/

/-- Modelled from the spec: `lower_case_initial` lives in
`xsd_to_owl/auxiliary/uri_utils.py`, which is not among the provided
sources; the spec describes the naming service as normalising logical
names, and the sources use it to lowercase the initial letter of property
names ("`_lower_case_initial`").  We lowercase the first character. -/
def lower_case_initial (s : String) : String :=
  match s.toList with
  | [] => ""
  | c :: cs => String.mk (c.toLower :: cs)

structure PropRegEntry where
  uri : String
  is_datatype : Bool
deriving DecidableEq, Repr

abbrev PropertyRegistry := List (String × PropRegEntry)

/-- `property_utils.reset_property_registry`. -/
def reset_property_registry : PropertyRegistry := []

/-- Dict assignment `d[k] = v` (replace an existing binding, else append). -/
def dictSet (reg : PropertyRegistry) (k : String) (v : PropRegEntry) :
    PropertyRegistry :=
  if (reg.lookup k).isSome then
    reg.map (fun p => if p.1 = k then (k, v) else p)
  else reg ++ [(k, v)]

/-- `property_utils.register_property(property_name, property_uri,
is_datatype=True)`: lowercases the name, then stores
`{'uri': property_uri, 'is_datatype': is_datatype}`. -/
def register_property (reg : PropertyRegistry) (property_name property_uri :
    String) (is_datatype : Bool := true) : PropertyRegistry :=
  dictSet reg (lower_case_initial property_name)
    ⟨property_uri, is_datatype⟩

/-- `property_utils.get_registered_property(property_name)`: lowercases the
name and looks it up (`None` when absent). -/
def get_registered_property (reg : PropertyRegistry) (property_name : String) :
    Option PropRegEntry :=
  reg.lookup (lower_case_initial property_name)

/-- `property_utils.property_exists(property_uri, context)`: is the URI
declared as a datatype or object property in the graph? -/
def property_exists (property_uri : String) (g : Graph) : Bool :=
  g.contains ⟨property_uri, rdfType, owlDatatypeProperty⟩ ||
    g.contains ⟨property_uri, rdfType, owlObjectProperty⟩

/-- Does the graph hold any triple with the given subject and predicate?
(the `for ... in graph.triples((s, p, None)): flag = True; break` idiom of
`enhance_existing_property`). -/
def hasTripleWith (g : Graph) (s p : String) : Bool :=
  g.any (fun t => t.subj = s && t.pred = p)

/-- `property_utils.enhance_existing_property(property_uri, element,
parent_uri, context)`.  The element argument enters only through
`get_documentation(element)` (an external parser helper outside the core);
we take that result directly as `doc`.  The source:
```python
has_domain = False
for _, _, o in context.graph.triples((property_uri, context.RDFS.domain, None)):
    has_domain = True
    break
if not has_domain and parent_uri:
    context.graph.add((property_uri, context.RDFS.domain, parent_uri))
has_doc = False
for _, _, o in context.graph.triples((property_uri, context.SKOS.definition, None)):
    has_doc = True
    break
if not has_doc:
    doc = get_documentation(element)
    if doc:
        context.graph.add((property_uri, context.SKOS.definition,
                           rdflib.Literal(doc, lang='en')))
return property_uri
``` -/
def enhance_existing_property (property_uri : String) (doc : Option String)
    (parent_uri : Option String) (g : Graph) : String × Graph :=
  let has_domain := hasTripleWith g property_uri rdfsDomain
  let g1 :=
    if !has_domain && optTruthy parent_uri then
      addTriple g ⟨property_uri, rdfsDomain, parent_uri.getD ""⟩
    else g
  let has_doc := hasTripleWith g1 property_uri skosDefinition
  let g2 :=
    if !has_doc && optTruthy doc then
      addTriple g1 ⟨property_uri, skosDefinition, literalEn (doc.getD "")⟩
    else g1
  (property_uri, g2)

/-- `property_utils.create_datatype_property(property_uri, property_name,
parent_uri, range_uri, element, context)`.  The element argument enters
only through `is_functional(element)` and `get_documentation(element)`
(external parser helpers outside the core), passed here as `functional`
and `doc`.  Adds the type declaration, label, optional domain, range,
optional functional marking and optional documentation, then registers
the property. -/
def create_datatype_property (property_uri property_name : String)
    (parent_uri : Option String) (range_uri : String) (functional : Bool)
    (doc : Option String) (g : Graph) (reg : PropertyRegistry) :
    String × Graph × PropertyRegistry :=
  let g1 := addTriple g ⟨property_uri, rdfType, owlDatatypeProperty⟩
  let g2 := addTriple g1 ⟨property_uri, rdfsLabel, literalOf property_name⟩
  let g3 :=
    if optTruthy parent_uri then
      addTriple g2 ⟨property_uri, rdfsDomain, parent_uri.getD ""⟩
    else g2
  let g4 := addTriple g3 ⟨property_uri, rdfsRange, range_uri⟩
  let g5 :=
    if functional then
      addTriple g4 ⟨property_uri, rdfType, owlFunctionalProperty⟩
    else g4
  let g6 :=
    if optTruthy doc then
      addTriple g5 ⟨property_uri, skosDefinition, literalEn (doc.getD "")⟩
    else g5
  (property_uri, g6, register_property reg property_name property_uri true)

/-! ## The create-or-enhance discipline -/

/-- The per-node inputs a property-creation rule extracts from a tree node:
its logical name, the owning class URI, the inferred range, the
at-most-one-cardinality flag and the documentation text. -/
structure PropertyNode where
  name : String
  parent_uri : Option String
  range_uri : String
  functional : Bool
  doc : Option String

/-- Modelled from the spec: the naming service (`uri_for`, outside the
core sources) is deterministic; distinct logical names give distinct URIs.
We prefix the normalised name. -/
def uriFor (name : String) : String := "uri:" ++ lower_case_initial name

/-- Modelled from the spec: the concrete property rules
(`xsd_to_owl/rules/property_rules.py`) that wire the guarded
create-or-enhance flow are not among the provided sources.  Spec section
4.3: before creating, compute the candidate URI via the naming service and
check the entity registry and the graph for an existing declaration; if
found, do not re-declare the type triple, only merge missing facts
(`enhance_existing_property`); if not found, create the full declaration
and register it (`create_datatype_property`). -/
def createOrEnhanceProperty (n : PropertyNode)
    (st : Graph × PropertyRegistry) : Graph × PropertyRegistry :=
  let property_name := lower_case_initial n.name
  let uri :=
    match get_registered_property st.2 property_name with
    | some ent => ent.uri
    | none => uriFor n.name
  if property_exists uri st.1 then
    let r := enhance_existing_property uri n.doc n.parent_uri st.1
    (r.2, st.2)
  else
    let r := create_datatype_property uri property_name n.parent_uri
      n.range_uri n.functional n.doc st.1 st.2
    (r.2.1, r.2.2)

/-! ## Rule registry (`xsd_to_owl/core/registry.py`)

Rules are duck-typed: anything with `rule_id`, `priority`, `matches` and
`transform`.  The transformation context is the type parameter `σ` (the
Python context object threaded through every call). -/

structure Rule (σ : Type) where
  rule_id : String
  priority : Int
  /-- the source's `matches(element, context)` (`matches` is reserved
  syntax in Lean, hence the name). -/
  ruleMatches : XSDElement → σ → Bool
  transform : XSDElement → σ → σ

/-- Set insertion for the id sets (`set.add`). -/
def setAdd (s : List String) (x : String) : List String :=
  if s.contains x then s else s ++ [x]

/-- Set removal (`set.remove`, reached only under a membership guard). -/
def setRemove (s : List String) (x : String) : List String :=
  s.filter (fun y => y ≠ x)

structure RuleRegistry (σ : Type) where
  rules : List (Rule σ)
  activeRules : List String

/-- `RuleRegistry.__init__`. -/
def RuleRegistry.empty (σ : Type) : RuleRegistry σ := ⟨[], []⟩

/-- `RuleRegistry.register_rule`: append the rule, add its id to the
active set, return the registry (for chaining). -/
def RuleRegistry.register_rule (reg : RuleRegistry σ) (rule : Rule σ) :
    RuleRegistry σ :=
  ⟨reg.rules ++ [rule], setAdd reg.activeRules rule.rule_id⟩

/-- `RuleRegistry.get_rules`: all registered rules. -/
def RuleRegistry.get_rules (reg : RuleRegistry σ) : List (Rule σ) :=
  reg.rules

/-- `RuleRegistry.get_active_rules`:
`[rule for rule in self._rules if rule.rule_id in self._active_rules]`. -/
def RuleRegistry.get_active_rules (reg : RuleRegistry σ) : List (Rule σ) :=
  reg.rules.filter (fun r => reg.activeRules.contains r.rule_id)

/-- `RuleRegistry.activate_rule`. -/
def RuleRegistry.activate_rule (reg : RuleRegistry σ) (rule_id : String) :
    RuleRegistry σ :=
  ⟨reg.rules, setAdd reg.activeRules rule_id⟩

/-- `RuleRegistry.deactivate_rule`:
`if rule_id in self._active_rules: self._active_rules.remove(rule_id)`. -/
def RuleRegistry.deactivate_rule (reg : RuleRegistry σ) (rule_id : String) :
    RuleRegistry σ :=
  if reg.activeRules.contains rule_id then
    ⟨reg.rules, setRemove reg.activeRules rule_id⟩
  else reg

/-- `RuleRegistry.get_rule_by_id`: first registered rule with the id, else
`None`. -/
def RuleRegistry.get_rule_by_id (reg : RuleRegistry σ) (rule_id : String) :
    Option (Rule σ) :=
  reg.rules.find? (fun r => r.rule_id = rule_id)

/-! ## Phase machinery (`xsd_to_owl/core/pipeline.py`)

`TransformationPhase` keeps a per-phase set `_processed_elements` of
serialized elements; `is_processed` / `mark_processed` test and insert
`etree.tostring(element)`. -/

def serializeAttr (k : String) (v : Option String) : String :=
  match v with
  | none => ""
  | some s => " " ++ k ++ "=\x22" ++ s ++ "\x22"

mutual

/-- Model of `etree.tostring`: a canonical rendering of the element and
its whole subtree.  Structurally equal elements — and only those —
serialize identically. -/
def serialize : XSDElement → String
  | .mk tag nm ty cs =>
      "<" ++ tag ++ serializeAttr "name" nm ++ serializeAttr "type" ty ++
        ">" ++ serializeForest cs ++ "</" ++ tag ++ ">"

/-- Serialization of a child list, in order. -/
def serializeForest : List XSDElement → String
  | [] => ""
  | c :: cs => serialize c ++ serializeForest cs

end

/-- The per-phase traversal state: the phase's `_processed_elements`
(serialized forms) and the shared mutable context. -/
structure PhaseState (σ : Type) where
  processed : List String
  ctx : σ

/-- `TransformationPhase.is_processed`. -/
def isProcessedIn (st : PhaseState σ) (e : XSDElement) : Bool :=
  st.processed.contains (serialize e)

/-- The first rule in scan order whose `matches` returns true. -/
def firstMatch (rules : List (Rule σ)) (e : XSDElement) (c : σ) :
    Option (Rule σ) :=
  rules.find? (fun r => r.ruleMatches e c)

/-- `TransformationPhase._process_element`: skip if already processed;
otherwise apply the first matching rule, mark the node processed, and
stop scanning. -/
def processElement (rules : List (Rule σ)) (st : PhaseState σ)
    (e : XSDElement) : PhaseState σ :=
  if isProcessedIn st e then st
  else
    match firstMatch rules e st.ctx with
    | none => st
    | some r =>
        ⟨setAdd st.processed (serialize e), r.transform e st.ctx⟩

mutual

/-- `TransformationPhase._process_element_tree`: process the node, then
recurse into every child, unconditionally. -/
def processTree (rules : List (Rule σ)) (st : PhaseState σ) :
    XSDElement → PhaseState σ
  | .mk tag nm ty cs =>
      processForest rules (processElement rules st (.mk tag nm ty cs)) cs

/-- Traversal of a child list, left to right, threading the state. -/
def processForest (rules : List (Rule σ)) (st : PhaseState σ) :
    List XSDElement → PhaseState σ
  | [] => st
  | c :: cs => processForest rules (processTree rules st c) cs

end

/-- Stable insertion of a rule into a priority-descending list: the rule
goes after every rule of greater *or equal* priority (Python's stable
`sorted(..., key=priority, reverse=True)` keeps earlier-registered rules
first among equals). -/
def insertDesc (r : Rule σ) : List (Rule σ) → List (Rule σ)
  | [] => [r]
  | x :: xs =>
      if x.priority ≤ r.priority then r :: x :: xs
      else x :: insertDesc r xs

/-- Stable descending sort by priority, as `TransformationPhase.execute`
performs with `sorted(self.rules, key=lambda r: getattr(r, 'priority', 0),
reverse=True)`. -/
def sortRules : List (Rule σ) → List (Rule σ)
  | [] => []
  | r :: rs => insertDesc r (sortRules rs)

/-- `TransformationPhase.execute`: sort the rules by descending priority
(stable), then run the depth-first traversal from the root. -/
def phaseExecute (rules : List (Rule σ)) (root : XSDElement)
    (st : PhaseState σ) : PhaseState σ :=
  processTree (sortRules rules) st root

/-- `TransformationPipeline.execute`: run each phase in order over the
whole tree; every phase starts from its own `_processed_elements` (empty
for a freshly constructed pipeline) and the phases share the context. -/
def pipelineExecute (phases : List (List (Rule σ) × List String))
    (root : XSDElement) (c : σ) : σ :=
  phases.foldl
    (fun acc ph => (phaseExecute ph.1 root ⟨ph.2, acc⟩).ctx) c

/-! ## Supporting lemmas -/

theorem setAdd_contains_self (s : List String) (x : String) :
    (setAdd s x).contains x = true := by
  unfold setAdd
  split
  · assumption
  · simp

theorem setAdd_contains_of_contains (s : List String) (x y : String)
    (h : s.contains y = true) : (setAdd s x).contains y = true := by
  unfold setAdd
  split
  · exact h
  · simp_all

theorem processElement_of_processed (rules : List (Rule σ))
    (st : PhaseState σ) (e : XSDElement) (h : isProcessedIn st e = true) :
    processElement rules st e = st := by
  unfold processElement
  rw [if_pos h]

/-! ## Claim theorems -/

/-- C9: `register(rule)` adds the rule and marks it active; after
`deactivate_rule(id)` the rule is absent from `get_active_rules` but still
present in `get_rules` (nothing is removed from the registry itself); and
`activate_rule(id)` restores its membership in the active set. -/
theorem c9_registry_activation_contract (σ : Type) (reg : RuleRegistry σ)
    (r : Rule σ) :
    r ∈ (reg.register_rule r).get_rules ∧
    r ∈ (reg.register_rule r).get_active_rules ∧
    (∀ i : String,
      ((reg.register_rule r).deactivate_rule i).get_rules =
        (reg.register_rule r).get_rules ∧
      ∀ x ∈ ((reg.register_rule r).deactivate_rule i).get_active_rules,
        x.rule_id ≠ i) ∧
    r ∈ (((reg.register_rule r).deactivate_rule r.rule_id).activate_rule
          r.rule_id).get_active_rules := by
  refine ⟨?_, ?_, ?_, ?_⟩
  · simp [RuleRegistry.register_rule, RuleRegistry.get_rules]
  · simp only [RuleRegistry.register_rule, RuleRegistry.get_active_rules,
      List.mem_filter]
    exact ⟨by simp, setAdd_contains_self _ _⟩
  · intro i
    constructor
    · unfold RuleRegistry.deactivate_rule
      split <;> rfl
    · intro x hx
      unfold RuleRegistry.deactivate_rule at hx
      split at hx
      · simp only [RuleRegistry.get_active_rules, List.mem_filter,
          setRemove, List.elem_iff, List.mem_filter,
          decide_eq_true_eq] at hx
        exact hx.2.2
      · rename_i hni
        intro hxi
        apply hni
        simp only [RuleRegistry.get_active_rules, List.mem_filter] at hx
        exact hxi ▸ hx.2
  · unfold RuleRegistry.deactivate_rule
    split <;>
      simp only [RuleRegistry.activate_rule, RuleRegistry.get_active_rules,
        List.mem_filter, RuleRegistry.register_rule] <;>
      exact ⟨by simp, setAdd_contains_self _ _⟩

/-- C9 witness. -/
theorem c9_registry_activation_contract_witness :
    (⟨"r1", 100, fun _ _ => true, fun _ n => n⟩ : Rule Nat) ∈
      ((RuleRegistry.empty Nat).register_rule
        ⟨"r1", 100, fun _ _ => true, fun _ n => n⟩).get_rules ∧
    (⟨"r1", 100, fun _ _ => true, fun _ n => n⟩ : Rule Nat) ∈
      ((((RuleRegistry.empty Nat).register_rule
        ⟨"r1", 100, fun _ _ => true, fun _ n => n⟩).deactivate_rule
          "r1").activate_rule "r1").get_active_rules :=
  ⟨(c9_registry_activation_contract Nat (RuleRegistry.empty Nat)
      ⟨"r1", 100, fun _ _ => true, fun _ n => n⟩).1,
   (c9_registry_activation_contract Nat (RuleRegistry.empty Nat)
      ⟨"r1", 100, fun _ _ => true, fun _ n => n⟩).2.2.2⟩

/-- C10: `get_rule_by_id` returns a registered rule carrying the
identifier when one exists, and returns `None` (rather than raising) when
no registered rule carries it. -/
theorem c10_get_rule_by_id_contract (σ : Type) (reg : RuleRegistry σ)
    (i : String) :
    (∀ r, reg.get_rule_by_id i = some r → r ∈ reg.rules ∧ r.rule_id = i) ∧
    ((∃ r ∈ reg.rules, r.rule_id = i) → (reg.get_rule_by_id i).isSome) ∧
    ((∀ r ∈ reg.rules, r.rule_id ≠ i) → reg.get_rule_by_id i = none) := by
  refine ⟨?_, ?_, ?_⟩
  · intro r hr
    unfold RuleRegistry.get_rule_by_id at hr
    refine ⟨List.mem_of_find?_eq_some hr, ?_⟩
    have := List.find?_some hr
    simpa using this
  · rintro ⟨r, hmem, hid⟩
    unfold RuleRegistry.get_rule_by_id
    rw [List.find?_isSome]
    exact ⟨r, hmem, by simp [hid]⟩
  · intro hall
    unfold RuleRegistry.get_rule_by_id
    rw [List.find?_eq_none]
    intro x hx
    simpa using hall x hx

/-- C10 witness. -/
theorem c10_get_rule_by_id_contract_witness :
    ((RuleRegistry.empty Nat).register_rule
        ⟨"r1", 100, fun _ _ => true, fun _ n => n⟩).get_rule_by_id "r1" =
      some ⟨"r1", 100, fun _ _ => true, fun _ n => n⟩ ∧
    ((RuleRegistry.empty Nat).register_rule
        ⟨"r1", 100, fun _ _ => true, fun _ n => n⟩).get_rule_by_id "zzz" =
      none := by
  constructor
  · rfl
  · exact (c10_get_rule_by_id_contract Nat
      ((RuleRegistry.empty Nat).register_rule
        ⟨"r1", 100, fun _ _ => true, fun _ n => n⟩) "zzz").2.2
      (by intro r hr; simp [RuleRegistry.empty, RuleRegistry.register_rule] at hr;
          subst hr; decide)

/-- C5: a node whose name appears in the forced-literal table
(`FORCE_DATATYPE_PROPERTIES`) is classified as a literal-valued (datatype)
property by `is_datatype_property`, whatever its tag, type attribute and
children — in particular when its type definition is complex — because the
forced-literal check is performed before any structural inspection. -/
theorem c5_forced_datatype_override_wins (tag n : String)
    (ty : Option String) (cs : List XSDElement) (property_name : String)
    (hforced : is_forced_datatype_property n = true) :
    is_datatype_property (.mk tag (some n) ty cs) property_name = true := by
  have hmem : n = "airBrakedMassLoaded" ∨ n = "airBrakedMass" := by
    simp only [is_forced_datatype_property, FORCE_DATATYPE_PROPERTIES,
      NEVER_OBJECT_PROPERTIES, Bool.or_eq_true, List.elem_iff,
      List.mem_cons, List.not_mem_nil, or_false] at hforced
    exact hforced
  have hne : n.isEmpty = false := by
    rcases hmem with rfl | rfl <;> rfl
  simp only [is_datatype_property, XSDElement.nameAttr, XSDElement.typeAttr,
    hne, Bool.false_eq_true, if_false]
  rw [if_pos]
  rw [hforced]
  simp [strTruthy, hne]

/-- C5 witness: `airBrakedMassLoaded` with a complex (structured) type
definition — a direct `complexType` child — is still classified as a
datatype property. -/
theorem c5_forced_datatype_override_wins_witness :
    is_forced_datatype_property "airBrakedMassLoaded" = true ∧
    is_datatype_property
      (.mk "element" (some "airBrakedMassLoaded") none
        [.mk (XS_NS ++ "complexType") none none []])
      "airBrakedMassLoaded" = true :=
  ⟨by decide,
   c5_forced_datatype_override_wins "element" "airBrakedMassLoaded" none
     [.mk (XS_NS ++ "complexType") none none []] "airBrakedMassLoaded"
     (by decide)⟩

/-- C8 counterexample: the claim says the range-inference function returns
`xsd:dateTime` whenever the logical name contains a temporal cue; but for
a node with declared type `Numeric2-2` and name `expiryDate` (which
contains the cues `expiry` and `date`) `determine_datatype_range` returns
the decimal range, because the Numeric-type-reference rule is checked
first. -/
theorem c8_counterexample_numeric_beats_temporal :
    determine_datatype_range
        (.mk "element" (some "expiryDate") (some "Numeric2-2") [])
        "expiryDate" = DatatypeRange.decimal ∧
    DatatypeRange.decimal ≠ DatatypeRange.dateTime := by
  constructor
  · rfl
  · decide

/-- C8 (amended): when the type-reference range rules do not apply — the
declared type is absent or neither `Numeric`-prefixed nor a `:`-qualified
reference — the range is `xsd:dateTime` exactly when the (truthy) logical
name contains one of the temporal cues `date`, `time`, `expiry`, `until`,
`since`; and when additionally no cue applies, the default `xsd:string` is
returned. -/
theorem c8_amended_temporal_range_inference (element : XSDElement)
    (property_name : String)
    (hnotype : (optTruthy element.typeAttr &&
        (startsWithStr (element.typeAttr.getD "") "Numeric" ||
          containsSubstr (element.typeAttr.getD "") ":")) = false) :
    ((strTruthy property_name &&
        temporalCues.any
          (fun term => containsSubstr (lowerStr property_name) term)) = true →
      determine_datatype_range element property_name =
        DatatypeRange.dateTime) ∧
    ((strTruthy property_name &&
        temporalCues.any
          (fun term => containsSubstr (lowerStr property_name) term)) = false →
      determine_datatype_range element property_name =
        DatatypeRange.stringRange) := by
  unfold determine_datatype_range
  simp only [Bool.and_eq_false_iff, Bool.or_eq_false_iff] at hnotype
  constructor
  · intro hcue
    rcases hnotype with h | ⟨h1, h2⟩
    · simp [h, hcue]
    · simp [h1, h2, hcue]
  · intro hnocue
    rcases hnotype with h | ⟨h1, h2⟩
    · simp [h, hnocue]
    · simp [h1, h2, hnocue]

/-- C8 witness: a plain (untyped) node named `expiryDate` gets the
temporal range. -/
theorem c8_amended_temporal_range_inference_witness :
    determine_datatype_range (.mk "element" (some "expiryDate") none [])
        "expiryDate" = DatatypeRange.dateTime :=
  (c8_amended_temporal_range_inference
    (.mk "element" (some "expiryDate") none []) "expiryDate" (by decide)).1
    (by decide)

/-- C3: running the full pipeline twice on the same input tree, each run
starting from a freshly constructed pipeline (every phase's
processed-elements set empty) and a freshly constructed context (empty
graph, registries reset), produces identical output graphs.  In this
embedding the pipeline is a pure function of the tree, the rules and the
initial state, so two runs from equal fresh states agree; the phrase
"freshly constructed / reset" is exactly the hypothesis that both initial
states are the empty ones. -/
theorem c3_pipeline_rerun_identical (phases : List (List (Rule Graph)))
    (root : XSDElement) (ps1 ps2 : List (List (Rule Graph) × List String))
    (c1 c2 : Graph)
    (h1 : ps1 = phases.map (fun rs => (rs, ([] : List String))))
    (h2 : ps2 = phases.map (fun rs => (rs, ([] : List String))))
    (hc1 : c1 = []) (hc2 : c2 = []) :
    pipelineExecute ps1 root c1 = pipelineExecute ps2 root c2 := by
  subst h1 h2 hc1 hc2
  rfl

/-- C3 witness: a concrete one-phase pipeline over a one-node tree, run
twice from fresh states. -/
theorem c3_pipeline_rerun_identical_witness :
    pipelineExecute
        [([⟨"r", 100, fun _ _ => true,
            fun _ g => addTriple g ⟨"s", "p", "o"⟩⟩], [])]
        (.mk "e" none none []) [] =
      pipelineExecute
        [([⟨"r", 100, fun _ _ => true,
            fun _ g => addTriple g ⟨"s", "p", "o"⟩⟩], [])]
        (.mk "e" none none []) [] :=
  c3_pipeline_rerun_identical
    [[⟨"r", 100, fun _ _ => true, fun _ g => addTriple g ⟨"s", "p", "o"⟩⟩]]
    (.mk "e" none none []) _ _ _ _ rfl rfl rfl rfl

/-- C1: a phase scans its rules in priority-descending order and applies
exactly the first rule whose match succeeds, so at most one rule's apply
runs per node per phase: with a priority-150 and a priority-50 rule both
matching a (leaf) node — registered in the opposite order — the phase's
context is exactly the priority-150 rule's effect; that rule's triple is
present and the priority-50 rule's triple is absent. -/
theorem c1_conflict_resolution_highest_priority_wins
    (id150 id50 : String) (m150 m50 : XSDElement → Graph → Bool)
    (t150 t50 : Triple) (tag : String) (nm ty : Option String) (g : Graph)
    (hm150 : m150 (.mk tag nm ty []) g = true)
    (hm50 : m50 (.mk tag nm ty []) g = true)
    (hfresh : t50 ∉ g) (hne : t50 ≠ t150) :
    (phaseExecute
        [⟨id50, 50, m50, fun _ h => addTriple h t50⟩,
         ⟨id150, 150, m150, fun _ h => addTriple h t150⟩]
        (.mk tag nm ty []) ⟨[], g⟩).ctx = addTriple g t150 ∧
    t150 ∈ addTriple g t150 ∧ t50 ∉ addTriple g t150 := by
  refine ⟨?_, mem_addTriple_self g t150, ?_⟩
  · have hsort : sortRules
        [(⟨id50, 50, m50, fun _ h => addTriple h t50⟩ : Rule Graph),
         ⟨id150, 150, m150, fun _ h => addTriple h t150⟩] =
        [⟨id150, 150, m150, fun _ h => addTriple h t150⟩,
         ⟨id50, 50, m50, fun _ h => addTriple h t50⟩] := by
      simp [sortRules, insertDesc]
    unfold phaseExecute
    rw [hsort]
    simp [processTree, processForest, processElement, isProcessedIn,
      firstMatch, List.find?, hm150]
  · intro hmem
    rcases (mem_addTriple_iff g t150 t50).mp hmem with h | h
    · exact hfresh h
    · exact hne h

/-- C1 witness. -/
theorem c1_conflict_resolution_highest_priority_wins_witness :
    (phaseExecute
        [⟨"obj", 50, fun _ _ => true,
          fun _ h => addTriple h ⟨"s", "p", "objEffect"⟩⟩,
         ⟨"num", 150, fun _ _ => true,
          fun _ h => addTriple h ⟨"s", "p", "numEffect"⟩⟩]
        (.mk "e" none none []) ⟨[], ([] : Graph)⟩).ctx =
      addTriple [] ⟨"s", "p", "numEffect"⟩ ∧
    (⟨"s", "p", "numEffect"⟩ : Triple) ∈
      addTriple [] ⟨"s", "p", "numEffect"⟩ ∧
    (⟨"s", "p", "objEffect"⟩ : Triple) ∉
      addTriple [] ⟨"s", "p", "numEffect"⟩ :=
  c1_conflict_resolution_highest_priority_wins "num" "obj"
    (fun _ _ => true) (fun _ _ => true) ⟨"s", "p", "numEffect"⟩
    ⟨"s", "p", "objEffect"⟩ "e" none none [] rfl rfl
    (by decide) (by decide)

/-- C6: descent into children is unconditional.  For every node:
(1) processing the subtree always means processing the node and then all
its children, whatever the node's match or mark status; (2) a node already
marked processed is skipped for rule application (state unchanged by the
node itself) but its children are still visited; (3) a node where no rule
matches is left unmarked and untouched by the phase, and its children are
still visited. -/
theorem c6_unconditional_descent (σ : Type) (rules : List (Rule σ))
    (st : PhaseState σ) (tag : String) (nm ty : Option String)
    (cs : List XSDElement) :
    (processTree rules st (.mk tag nm ty cs) =
      processForest rules (processElement rules st (.mk tag nm ty cs)) cs) ∧
    (isProcessedIn st (.mk tag nm ty cs) = true →
      processTree rules st (.mk tag nm ty cs) = processForest rules st cs) ∧
    (isProcessedIn st (.mk tag nm ty cs) = false →
      firstMatch rules (.mk tag nm ty cs) st.ctx = none →
      processElement rules st (.mk tag nm ty cs) = st ∧
      processTree rules st (.mk tag nm ty cs) = processForest rules st cs) := by
  have hskip : ∀ h : isProcessedIn st (.mk tag nm ty cs) = true,
      processElement rules st (.mk tag nm ty cs) = st := by
    intro h
    unfold processElement
    rw [if_pos h]
  have hnomatch : isProcessedIn st (.mk tag nm ty cs) = false →
      firstMatch rules (.mk tag nm ty cs) st.ctx = none →
      processElement rules st (.mk tag nm ty cs) = st := by
    intro h1 h2
    unfold processElement
    rw [if_neg (by simp [h1]), h2]
  refine ⟨by rw [processTree], ?_, ?_⟩
  · intro h
    rw [processTree, hskip h]
  · intro h1 h2
    refine ⟨hnomatch h1 h2, ?_⟩
    rw [processTree, hnomatch h1 h2]

/-- C6 witness: a node already marked processed, over a no-match rule
set, with one child. -/
theorem c6_unconditional_descent_witness :
    processTree ([] : List (Rule Nat))
        ⟨[serialize (.mk "p" none none [.mk "c" none none []])], 0⟩
        (.mk "p" none none [.mk "c" none none []]) =
      processForest ([] : List (Rule Nat))
        ⟨[serialize (.mk "p" none none [.mk "c" none none []])], 0⟩
        [.mk "c" none none []] :=
  (c6_unconditional_descent Nat []
      ⟨[serialize (.mk "p" none none [.mk "c" none none []])], 0⟩
      "p" none none [.mk "c" none none []]).2.1 (by simp [isProcessedIn])

/-- C7: the per-phase processed marker identifies a node by its
serialization (`etree.tostring`), not by its position: if two nodes
serialize identically, then once a rule has been applied to the first
(which marks it), the second is treated as already processed — the phase
state is left unchanged at the second node and no rule is applied to
it. -/
theorem c7_processed_identity_is_serialization (σ : Type)
    (rules : List (Rule σ)) (st : PhaseState σ) (e1 e2 : XSDElement)
    (hser : serialize e1 = serialize e2)
    (hunproc : isProcessedIn st e1 = false)
    (happ : (firstMatch rules e1 st.ctx).isSome = true) :
    isProcessedIn (processElement rules st e1) e2 = true ∧
    processElement rules (processElement rules st e1) e2 =
      processElement rules st e1 := by
  obtain ⟨r, hr⟩ := Option.isSome_iff_exists.mp happ
  have hstep : processElement rules st e1 =
      ⟨setAdd st.processed (serialize e1), r.transform e1 st.ctx⟩ := by
    unfold processElement
    rw [if_neg (by simp [hunproc]), hr]
  have hmarked : isProcessedIn (processElement rules st e1) e2 = true := by
    rw [hstep]
    unfold isProcessedIn
    simp only [← hser]
    exact setAdd_contains_self _ _
  exact ⟨hmarked, processElement_of_processed rules _ e2 hmarked⟩

/-- C7 witness: two structurally equal sibling nodes; after the first is
processed, processing the second leaves the state unchanged. -/
theorem c7_processed_identity_is_serialization_witness :
    isProcessedIn
      (processElement
        [⟨"r", 100, fun _ _ => true, fun _ n => n + 1⟩]
        ⟨[], (0 : Nat)⟩ (.mk "c" none none []))
      (.mk "c" none none []) = true ∧
    processElement [⟨"r", 100, fun _ _ => true, fun _ n => n + 1⟩]
        (processElement [⟨"r", 100, fun _ _ => true, fun _ n => n + 1⟩]
          ⟨[], (0 : Nat)⟩ (.mk "c" none none []))
        (.mk "c" none none []) =
      processElement [⟨"r", 100, fun _ _ => true, fun _ n => n + 1⟩]
        ⟨[], (0 : Nat)⟩ (.mk "c" none none []) :=
  c7_processed_identity_is_serialization Nat
    [⟨"r", 100, fun _ _ => true, fun _ n => n + 1⟩] ⟨[], 0⟩
    (.mk "c" none none []) (.mk "c" none none []) rfl (by rfl) (by rfl)

/-! ## Sorting lemmas for determinism under reordering -/

theorem insertDesc_perm (r : Rule σ) (l : List (Rule σ)) :
    (insertDesc r l).Perm (r :: l) := by
  induction l with
  | nil => simp [insertDesc]
  | cons x xs ih =>
    rw [insertDesc]
    split
    · exact List.Perm.refl _
    · exact (List.Perm.cons x ih).trans (List.Perm.swap r x xs)

theorem sortRules_perm (l : List (Rule σ)) : (sortRules l).Perm l := by
  induction l with
  | nil => simp [sortRules]
  | cons x xs ih =>
    rw [sortRules]
    exact (insertDesc_perm x (sortRules xs)).trans (List.Perm.cons x ih)

theorem sorted_insertDesc (r : Rule σ) (l : List (Rule σ))
    (h : l.Pairwise (fun a b => b.priority ≤ a.priority)) :
    (insertDesc r l).Pairwise (fun a b => b.priority ≤ a.priority) := by
  induction l with
  | nil => simp [insertDesc]
  | cons x xs ih =>
    rw [insertDesc]
    rcases List.pairwise_cons.mp h with ⟨hx, hxs⟩
    split
    · rename_i hc
      refine List.pairwise_cons.mpr ⟨?_, h⟩
      intro y hy
      rcases List.mem_cons.mp hy with rfl | hy2
      · exact hc
      · exact le_trans (hx y hy2) hc
    · rename_i hc
      refine List.pairwise_cons.mpr ⟨?_, ih hxs⟩
      intro y hy
      rcases List.mem_cons.mp
          ((insertDesc_perm r xs).mem_iff.mp hy) with rfl | hy4
      · exact le_of_not_le hc
      · exact hx y hy4

theorem sortRules_sorted (l : List (Rule σ)) :
    (sortRules l).Pairwise (fun a b => b.priority ≤ a.priority) := by
  induction l with
  | nil => simp [sortRules]
  | cons x xs ih =>
    rw [sortRules]
    exact sorted_insertDesc x (sortRules xs) ih

/-- C4 counterexample: two rules with the *same* priority and different
effects, both matching the one-node tree.  Registering them in the two
possible orders yields different final graphs, because ties are broken by
registration order (first-registered wins); so "registering the same
rules in a different order but with the same priorities yields the same
final graph" fails as stated. -/
theorem c4_counterexample_tie_depends_on_registration_order :
    pipelineExecute
        [([⟨"A", 100, fun _ _ => true,
            fun _ g => addTriple g ⟨"s", "p", "effectA"⟩⟩,
           ⟨"B", 100, fun _ _ => true,
            fun _ g => addTriple g ⟨"s", "p", "effectB"⟩⟩], [])]
        (.mk "e" none none []) [] ≠
      pipelineExecute
        [([⟨"B", 100, fun _ _ => true,
            fun _ g => addTriple g ⟨"s", "p", "effectB"⟩⟩,
           ⟨"A", 100, fun _ _ => true,
            fun _ g => addTriple g ⟨"s", "p", "effectA"⟩⟩], [])]
        (.mk "e" none none []) [] := by
  decide

/-- C4 (amended): registering the same rules in a different order yields
the same final graph provided the priorities are pairwise distinct (ties
between equal priorities are broken by stable registration order with the
first-registered rule winning, so reordering tied rules may change the
result — see the counterexample). -/
theorem c4_amended_reordering_with_distinct_priorities (σ : Type)
    (rules1 rules2 : List (Rule σ)) (root : XSDElement) (c : σ)
    (hperm : rules1.Perm rules2)
    (hdist : rules1.Pairwise (fun a b => a.priority ≠ b.priority)) :
    phaseExecute rules1 root ⟨[], c⟩ = phaseExecute rules2 root ⟨[], c⟩ := by
  have hsym : ∀ {x y : Rule σ},
      x.priority ≠ y.priority → y.priority ≠ x.priority :=
    fun h => Ne.symm h
  have hs : sortRules rules1 = sortRules rules2 := by
    have p1 := sortRules_perm rules1
    have p2 := sortRules_perm rules2
    have pp : (sortRules rules1).Perm (sortRules rules2) :=
      p1.trans (hperm.trans p2.symm)
    have d1 : (sortRules rules1).Pairwise
        (fun a b => a.priority ≠ b.priority) :=
      (p1.pairwise_iff hsym).mpr hdist
    have ss1 : (sortRules rules1).Pairwise
        (fun a b => b.priority < a.priority) :=
      ((sortRules_sorted rules1).and d1).imp
        (fun h => lt_of_le_of_ne h.1 (Ne.symm h.2))
    have d2 : (sortRules rules2).Pairwise
        (fun a b => a.priority ≠ b.priority) :=
      (p2.pairwise_iff hsym).mpr ((hperm.pairwise_iff hsym).mp hdist)
    have ss2 : (sortRules rules2).Pairwise
        (fun a b => b.priority < a.priority) :=
      ((sortRules_sorted rules2).and d2).imp
        (fun h => lt_of_le_of_ne h.1 (Ne.symm h.2))
    haveI : IsAntisymm (Rule σ) (fun a b => b.priority < a.priority) :=
      ⟨fun a b h1 h2 => absurd (lt_trans h1 h2) (lt_irrefl _)⟩
    exact List.eq_of_perm_of_sorted pp ss1 ss2
  unfold phaseExecute
  rw [hs]

/-- C4 amended witness: two rules with distinct priorities, registered in
the two orders, give the same phase result. -/
theorem c4_amended_reordering_with_distinct_priorities_witness :
    phaseExecute
        [⟨"A", 150, fun _ _ => true,
          fun _ g => addTriple g ⟨"s", "p", "effectA"⟩⟩,
         ⟨"B", 50, fun _ _ => true,
          fun _ g => addTriple g ⟨"s", "p", "effectB"⟩⟩]
        (.mk "e" none none []) ⟨[], ([] : Graph)⟩ =
      phaseExecute
        [⟨"B", 50, fun _ _ => true,
          fun _ g => addTriple g ⟨"s", "p", "effectB"⟩⟩,
         ⟨"A", 150, fun _ _ => true,
          fun _ g => addTriple g ⟨"s", "p", "effectA"⟩⟩]
        (.mk "e" none none []) ⟨[], ([] : Graph)⟩ :=
  c4_amended_reordering_with_distinct_priorities Graph
    [⟨"A", 150, fun _ _ => true,
      fun _ g => addTriple g ⟨"s", "p", "effectA"⟩⟩,
     ⟨"B", 50, fun _ _ => true,
      fun _ g => addTriple g ⟨"s", "p", "effectB"⟩⟩]
    [⟨"B", 50, fun _ _ => true,
      fun _ g => addTriple g ⟨"s", "p", "effectB"⟩⟩,
     ⟨"A", 150, fun _ _ => true,
      fun _ g => addTriple g ⟨"s", "p", "effectA"⟩⟩]
    (.mk "e" none none []) []
    (List.Perm.swap _ _ _)
    (by simp)

/-! ## Dedup lemmas for the create-or-enhance discipline -/

theorem mem_addTriple_mono (g : Graph) (x t : Triple) (h : t ∈ g) :
    t ∈ addTriple g x :=
  (mem_addTriple_iff g x t).mpr (Or.inl h)

theorem mem_ite_addTriple (c : Prop) [Decidable c] (g : Graph) (x t : Triple)
    (h : t ∈ g) : t ∈ (if c then addTriple g x else g) := by
  split
  · exact mem_addTriple_mono g x t h
  · exact h

theorem count_ite_addTriple_of_ne (c : Prop) [Decidable c] (g : Graph)
    (x u : Triple) (h : u ≠ x) :
    (if c then addTriple g x else g).count u = g.count u := by
  split
  · exact count_addTriple_of_ne g x u h
  · rfl

theorem enhance_count_rdfType (uri u o : String) (doc parent : Option String)
    (g : Graph) :
    ((enhance_existing_property uri doc parent g).2).count
        ⟨u, rdfType, o⟩ = g.count ⟨u, rdfType, o⟩ := by
  unfold enhance_existing_property
  dsimp only
  rw [count_ite_addTriple_of_ne _ _ _ _
        (by simp [rdfType, skosDefinition]),
      count_ite_addTriple_of_ne _ _ _ _
        (by simp [rdfType, rdfsDomain])]

theorem enhance_mem_mono (uri : String) (doc parent : Option String)
    (g : Graph) (t : Triple) (h : t ∈ g) :
    t ∈ (enhance_existing_property uri doc parent g).2 := by
  unfold enhance_existing_property
  dsimp only
  exact mem_ite_addTriple _ _ _ _ (mem_ite_addTriple _ _ _ _ h)

theorem createOrEnhance_of_registered (n : PropertyNode) (g : Graph)
    (reg : PropertyRegistry) (uri0 : String) (b : Bool)
    (hreg : get_registered_property reg (lower_case_initial n.name) =
      some ⟨uri0, b⟩)
    (hex : property_exists uri0 g = true) :
    createOrEnhanceProperty n (g, reg) =
      ((enhance_existing_property uri0 n.doc n.parent_uri g).2, reg) := by
  unfold createOrEnhanceProperty
  dsimp only
  rw [hreg]
  dsimp only
  rw [if_pos hex]

theorem createOrEnhance_of_fresh (n : PropertyNode) (g : Graph)
    (reg : PropertyRegistry)
    (hreg : get_registered_property reg (lower_case_initial n.name) = none)
    (hex : property_exists (uriFor n.name) g = false) :
    createOrEnhanceProperty n (g, reg) =
      ((create_datatype_property (uriFor n.name)
          (lower_case_initial n.name) n.parent_uri n.range_uri n.functional
          n.doc g reg).2.1,
       (create_datatype_property (uriFor n.name)
          (lower_case_initial n.name) n.parent_uri n.range_uri n.functional
          n.doc g reg).2.2) := by
  unfold createOrEnhanceProperty
  dsimp only
  rw [hreg]
  dsimp only
  rw [if_neg (by simp [hex])]

theorem create_count_type_succ (uri pname : String)
    (parent : Option String) (range : String) (fn : Bool)
    (doc : Option String) (g : Graph) (reg : PropertyRegistry)
    (h : (⟨uri, rdfType, owlDatatypeProperty⟩ : Triple) ∉ g) :
    ((create_datatype_property uri pname parent range fn doc g reg).2.1).count
        ⟨uri, rdfType, owlDatatypeProperty⟩ =
      g.count ⟨uri, rdfType, owlDatatypeProperty⟩ + 1 := by
  unfold create_datatype_property
  dsimp only
  rw [count_ite_addTriple_of_ne _ _ _ _
        (by simp [rdfType, skosDefinition]),
      count_ite_addTriple_of_ne _ _ _ _
        (by simp [owlDatatypeProperty, owlFunctionalProperty]),
      count_addTriple_of_ne _ _ _ (by simp [rdfType, rdfsRange]),
      count_ite_addTriple_of_ne _ _ _ _ (by simp [rdfType, rdfsDomain]),
      count_addTriple_of_ne _ _ _ (by simp [rdfType, rdfsLabel]),
      count_addTriple_self_of_not_mem g _ h]

theorem create_mem_type (uri pname : String) (parent : Option String)
    (range : String) (fn : Bool) (doc : Option String) (g : Graph)
    (reg : PropertyRegistry) :
    (⟨uri, rdfType, owlDatatypeProperty⟩ : Triple) ∈
      (create_datatype_property uri pname parent range fn doc g reg).2.1 := by
  unfold create_datatype_property
  dsimp only
  exact mem_ite_addTriple _ _ _ _ (mem_ite_addTriple _ _ _ _
    (mem_addTriple_mono _ _ _ (mem_ite_addTriple _ _ _ _
      (mem_addTriple_mono _ _ _ (mem_addTriple_self g _)))))

theorem property_exists_of_mem_type (uri : String) (g : Graph)
    (h : (⟨uri, rdfType, owlDatatypeProperty⟩ : Triple) ∈ g) :
    property_exists uri g = true := by
  unfold property_exists
  rw [Bool.or_eq_true]
  left
  exact List.elem_iff.mpr h

theorem c2_fold_invariant (N : String) (nodes : List PropertyNode)
    (hall : ∀ nd ∈ nodes, nd.name = N) (g : Graph) (reg : PropertyRegistry)
    (hcount : g.count ⟨uriFor N, rdfType, owlDatatypeProperty⟩ = 1)
    (hmem : (⟨uriFor N, rdfType, owlDatatypeProperty⟩ : Triple) ∈ g)
    (hreg : get_registered_property reg (lower_case_initial N) =
      some ⟨uriFor N, true⟩) :
    (nodes.foldl (fun st nd => createOrEnhanceProperty nd st) (g, reg)).1.count
        ⟨uriFor N, rdfType, owlDatatypeProperty⟩ = 1 := by
  induction nodes generalizing g with
  | nil => simpa using hcount
  | cons nd rest ih =>
    have hname : nd.name = N := hall nd (List.mem_cons_self nd rest)
    have hstep : createOrEnhanceProperty nd (g, reg) =
        ((enhance_existing_property (uriFor N) nd.doc nd.parent_uri g).2,
          reg) := by
      apply createOrEnhance_of_registered nd g reg (uriFor N) true
      · rw [hname]
        exact hreg
      · exact property_exists_of_mem_type _ _ hmem
    rw [List.foldl_cons, hstep]
    exact ih (fun x hx => hall x (List.mem_cons_of_mem nd hx)) _
      (by rw [enhance_count_rdfType]; exact hcount)
      (enhance_mem_mono _ _ _ _ _ hmem)

/-- C2: for any logical entity name, no matter how many tree nodes resolve
to that name, the output graph contains exactly one type-declaration
triple for it (processing any non-empty run of nodes carrying that name
through the guarded create-or-enhance discipline, from a fresh graph and a
reset registry, leaves exactly one `rdf:type owl:DatatypeProperty` triple
for the entity's URI); when the entity is already declared, the rule does
not re-declare the type triple but only merges facts the entity lacks — a
missing domain assertion is added — and the merge is a no-op for facts
already present. -/
theorem c2_exactly_one_declaration_and_idempotent_merge
    (N : String) (nodes : List PropertyNode)
    (hall : ∀ nd ∈ nodes, nd.name = N) (hne : nodes ≠ []) :
    ((nodes.foldl (fun st nd => createOrEnhanceProperty nd st)
        (([] : Graph), reset_property_registry)).1.count
        ⟨uriFor N, rdfType, owlDatatypeProperty⟩ = 1) ∧
    (∀ (uri : String) (doc parent : Option String) (g : Graph),
      (hasTripleWith g uri rdfsDomain = false → optTruthy parent = true →
        (⟨uri, rdfsDomain, parent.getD ""⟩ : Triple) ∈
          (enhance_existing_property uri doc parent g).2) ∧
      (hasTripleWith g uri rdfsDomain = true →
        hasTripleWith g uri skosDefinition = true →
        (enhance_existing_property uri doc parent g).2 = g)) := by
  constructor
  · obtain ⟨nd, rest, rfl⟩ := List.exists_cons_of_ne_nil hne
    have hname : nd.name = N := hall nd (List.mem_cons_self nd rest)
    have hstep : createOrEnhanceProperty nd ([], reset_property_registry) =
        ((create_datatype_property (uriFor N) (lower_case_initial N)
            nd.parent_uri nd.range_uri nd.functional nd.doc []
            reset_property_registry).2.1,
         (create_datatype_property (uriFor N) (lower_case_initial N)
            nd.parent_uri nd.range_uri nd.functional nd.doc []
            reset_property_registry).2.2) := by
      unfold createOrEnhanceProperty
      rw [hname]
      rfl
    rw [List.foldl_cons, hstep]
    apply c2_fold_invariant N rest
      (fun x hx => hall x (List.mem_cons_of_mem nd hx))
    · rw [create_count_type_succ _ _ _ _ _ _ _ _ (by simp)]
      simp
    · exact create_mem_type _ _ _ _ _ _ _ _
    · unfold create_datatype_property register_property dictSet
        reset_property_registry get_registered_property
      simp [List.lookup]
  · intro uri doc parent g
    constructor
    · intro hnd hp
      unfold enhance_existing_property
      dsimp only
      rw [hnd]
      simp only [Bool.not_false, Bool.true_and, hp, if_pos]
      split
      · exact mem_addTriple_iff _ _ _ |>.mpr
          (Or.inl (mem_addTriple_self g _))
      · exact mem_addTriple_self g _
    · intro hd hdoc
      unfold enhance_existing_property
      dsimp only
      rw [hd]
      simp only [Bool.not_true, Bool.false_and, if_neg, Bool.false_eq_true,
        not_false_eq_true]
      rw [hdoc]
      simp

/-- C2 witness: two nodes with the same name `payload`, one lacking and
one carrying a domain, processed from a fresh state: one type-declaration
triple results. -/
theorem c2_exactly_one_declaration_and_idempotent_merge_witness :
    (([⟨"payload", none, "xsd:string", false, none⟩,
       ⟨"payload", some "uri:ownerA", "xsd:string", false, some "docs"⟩] :
        List PropertyNode).foldl
        (fun st nd => createOrEnhanceProperty nd st)
        (([] : Graph), reset_property_registry)).1.count
      ⟨uriFor "payload", rdfType, owlDatatypeProperty⟩ = 1 :=
  (c2_exactly_one_declaration_and_idempotent_merge "payload"
    [⟨"payload", none, "xsd:string", false, none⟩,
     ⟨"payload", some "uri:ownerA", "xsd:string", false, some "docs"⟩]
    (by
      intro nd hnd
      simp only [List.mem_cons, List.not_mem_nil, or_false] at hnd
      rcases hnd with rfl | rfl <;> rfl)
    (by simp)).1

end XSDtoOWL